import Mathlib

/-!
Verification development for the `generate_finetune_jsonl.py` pipeline: a shallow
embedding of the script's data model and operations, followed by theorems about
the embedded definitions.

Modelling conventions:
* Python strings are `List Char` (called `Str`); `str.strip()` / `str.rstrip()`
  become `pyStrip` / `pyRstrip` over `Char.isWhitespace`.
* Parsed JSON documents are the inductive `Json`; Python dicts keep their
  insertion order as association lists (CPython 3.7+ guarantees this order).
* Fallible attribute access and iteration (`AttributeError` / `TypeError`)
  are modelled with `Except Str`; the error strings are abstract renderings of
  the Python exception text, not byte-for-byte reproductions.
* The external `tiktoken` backend is modelled as an abstract `Tokenizer`
  (an encode/decode pair); `none` models the backend raising, which triggers
  the heuristic fallbacks in `count_tokens` / `truncate_to_tokens`.
* `print` progress messages are operator-facing side effects and are not part
  of the model; the structured diagnostic entries (`error_entries`) are.
-/

/-- Python strings, modelled as lists of characters. -/
abbrev Str := List Char

/-- Python `str.strip()`: drop whitespace from both ends. -/
def pyStrip (s : Str) : Str :=
  ((s.dropWhile Char.isWhitespace).reverse.dropWhile Char.isWhitespace).reverse

/-- Python `str.rstrip()`: drop whitespace from the right end. -/
def pyRstrip (s : Str) : Str :=
  (s.reverse.dropWhile Char.isWhitespace).reverse

/-- Parsed JSON values, the result of `json.load`. Object fields are kept in
insertion order, matching CPython dict semantics. -/
inductive Json where
  | null
  | bool (b : Bool)
  | num (n : Int)
  | str (s : Str)
  | arr (elems : List Json)
  | obj (fields : List (Str × Json))

/-- Python truthiness (`bool(v)`) for parsed JSON values. -/
def falsy : Json → Bool
  | .null => true
  | .bool b => !b
  | .num n => n == 0
  | .str s => s.isEmpty
  | .arr xs => xs.isEmpty
  | .obj kvs => kvs.isEmpty

/-- Abstract rendering of the `AttributeError` raised by `v.get(...)` on a
non-dict value. -/
def attrGetErr : Str := "AttributeError: object has no attribute get".data

/-- Abstract rendering of the `AttributeError` raised by `v.items()` on a
non-dict value. -/
def attrItemsErr : Str := "AttributeError: object has no attribute items".data

/-- Abstract rendering of the `AttributeError` raised by `v.strip()` on a
non-string value. -/
def attrStripErr : Str := "AttributeError: object has no attribute strip".data

/-- Abstract rendering of the `TypeError` raised by iterating a non-iterable. -/
def typeIterErr : Str := "TypeError: object is not iterable".data

/-- Abstract rendering of the `TypeError` raised by `len()` on a value with no
length. -/
def typeLenErr : Str := "TypeError: object has no len".data

/-- Python `d.get(key, deflt)`: dict lookup with default; raises
`AttributeError` on non-dict receivers. -/
def pyGet (d : Json) (key : Str) (deflt : Json) : Except Str Json :=
  match d with
  | .obj kvs => .ok ((kvs.lookup key).getD deflt)
  | _ => .error attrGetErr

/-- Python `d.items()`: the field list in insertion order; raises
`AttributeError` on non-dict receivers. -/
def iterItems (v : Json) : Except Str (List (Str × Json)) :=
  match v with
  | .obj kvs => .ok kvs
  | _ => .error attrItemsErr

/-- Python `for x in v`: arrays yield elements, strings yield one-character
strings, dicts yield their keys; other values raise `TypeError`. -/
def iterElems (v : Json) : Except Str (List Json) :=
  match v with
  | .arr xs => .ok xs
  | .str s => .ok (s.map (fun c => Json.str [c]))
  | .obj kvs => .ok (kvs.map (fun kv => Json.str kv.fst))
  | _ => .error typeIterErr

/-- Python `len(v)` for parsed JSON values; raises `TypeError` on null,
booleans and numbers. -/
def pyLen (v : Json) : Except Str Nat :=
  match v with
  | .arr xs => .ok xs.length
  | .str s => .ok s.length
  | .obj kvs => .ok kvs.length
  | _ => .error typeLenErr

def mappingKey : Str := "mapping".data
def messageKey : Str := "message".data
def authorKey : Str := "author".data
def roleKey : Str := "role".data
def contentKey : Str := "content".data
def partsKey : Str := "parts".data
def ctypeKey : Str := "content_type".data
def textKey : Str := "text".data
def userRole : Str := "user".data
def audioTag : Str := "audio_transcription".data
def unknownTag : Str := "unknown".data

/-- Structured diagnostic entries accumulated in `error_entries`. The
human-readable `warning` strings printed alongside are operator messages and
are not modelled; the structured fields are. -/
inductive DiagEntry where
  | missing_mapping (conversation_index : Nat) (conversation : Json)
  | non_text_content (conversation_index : Nat) (node_id : Str)
      (content_type : Json) (part : Json)
  | non_string_part (conversation_index : Nat) (node_id : Str) (part : Json)
  | exception (conversation_index : Nat) (conversation : Json) (error : Str)

/-- One `part` of a user message's content, as handled by the inner loop of
`extract_user_messages`: a string part is stripped and kept when non-empty; a
dict part tagged `audio_transcription` contributes its stripped `text` field
(raising when that field is not a string); any other dict part produces a
`non_text_content` diagnostic; any other shape produces a `non_string_part`
diagnostic. -/
def processPart (i : Nat) (nodeId : Str) (part : Json) :
    Except Str (List Str × List DiagEntry) :=
  match part with
  | .str s =>
    if (pyStrip s).isEmpty then .ok ([], []) else .ok ([pyStrip s], [])
  | .obj kvs =>
    match (kvs.lookup ctypeKey).getD .null with
    | .str t =>
      if t == audioTag then
        match (kvs.lookup textKey).getD (.str []) with
        | .str s =>
          if (pyStrip s).isEmpty then .ok ([], []) else .ok ([pyStrip s], [])
        | _ => .error attrStripErr
      else
        .ok ([], [.non_text_content i nodeId (Json.str t) (Json.obj kvs)])
    | _ =>
      .ok ([], [.non_text_content i nodeId
        ((kvs.lookup ctypeKey).getD (.str unknownTag)) (Json.obj kvs)])
  | other => .ok ([], [.non_string_part i nodeId other])

/-- The loop over the `parts` list of one message. Messages collected so far
are discarded if a later part raises, but diagnostics already appended to the
shared `error_entries` list persist. -/
def processParts (i : Nat) (nodeId : Str) :
    List Json → List DiagEntry × Except Str (List Str)
  | [] => ([], .ok [])
  | p :: rest =>
    match processPart i nodeId p with
    | .error e => ([], .error e)
    | .ok (ms, ds) =>
      match processParts i nodeId rest with
      | (ds2, .ok ms2) => (ds ++ ds2, .ok (ms ++ ms2))
      | (ds2, .error e) => (ds ++ ds2, .error e)

/-- Whether `role == "user"` holds for the value of `author.get("role")`. -/
def isUserRole : Json → Bool
  | .str s => s == userRole
  | _ => false

/-- The body of the per-node loop of `extract_user_messages`: fetch the
message, skip falsy messages and non-user authors, then walk the parts. Any
raising step aborts the node (and, at the caller, the whole conversation). -/
def processNode (i : Nat) (nodeId : Str) (node : Json) :
    List DiagEntry × Except Str (List Str) :=
  match pyGet node messageKey .null with
  | .error e => ([], .error e)
  | .ok message =>
    if falsy message then ([], .ok [])
    else
      match pyGet message authorKey (.obj []) with
      | .error e => ([], .error e)
      | .ok author =>
        match pyGet author roleKey .null with
        | .error e => ([], .error e)
        | .ok role =>
          if !isUserRole role then ([], .ok [])
          else
            match pyGet message contentKey (.obj []) with
            | .error e => ([], .error e)
            | .ok content =>
              match pyGet content partsKey (.arr []) with
              | .error e => ([], .error e)
              | .ok partsJ =>
                match iterElems partsJ with
                | .error e => ([], .error e)
                | .ok parts => processParts i nodeId parts

/-- The loop over `mapping.items()` of one conversation, in insertion order.
Fragments accumulate in `conversation_messages` and are lost wholesale if a
later node raises; diagnostics persist. -/
def processNodes (i : Nat) :
    List (Str × Json) → List DiagEntry × Except Str (List Str)
  | [] => ([], .ok [])
  | (nid, node) :: rest =>
    match processNode i nid node with
    | (ds, .error e) => (ds, .error e)
    | (ds, .ok ms) =>
      match processNodes i rest with
      | (ds2, .ok ms2) => (ds ++ ds2, .ok (ms ++ ms2))
      | (ds2, .error e) => (ds ++ ds2, .error e)

/-- Outcome of processing one conversation inside the `try` block. -/
inductive ConvoStep where
  | ok (msgs : List Str) (diags : List DiagEntry)
  | missing
  | failed (diags : List DiagEntry) (e : Str)

/-- One iteration of the conversation loop of `extract_user_messages`:
`convo.get("mapping", {})`, the falsy check, `mapping.items()`, and the node
walk; raising anywhere inside the `try` block yields `failed` with the
diagnostics appended before the raise. -/
def processConvo (i : Nat) (convo : Json) : ConvoStep :=
  match pyGet convo mappingKey (.obj []) with
  | .error e => .failed [] e
  | .ok mapping =>
    if falsy mapping then .missing
    else
      match iterItems mapping with
      | .error e => .failed [] e
      | .ok nodes =>
        match processNodes i nodes with
        | (ds, .ok ms) => .ok ms ds
        | (ds, .error e) => .failed ds e

/-- Result of `extract_user_messages`: the extracted fragments, the
`error_entries` diagnostics, and the skipped-conversation count. -/
structure ExtractResult where
  messages : List Str
  errors : List DiagEntry
  skipped : Nat

/-- The conversation loop from index `i` on: a `missing` mapping or a caught
exception adds one diagnostic and one to the skipped count and processing
continues with the remaining conversations. -/
def extractFrom (i : Nat) : List Json → ExtractResult
  | [] => ⟨[], [], 0⟩
  | convo :: rest =>
    let r := extractFrom (i + 1) rest
    match processConvo i convo with
    | .ok ms ds => ⟨ms ++ r.messages, ds ++ r.errors, r.skipped⟩
    | .missing =>
      ⟨r.messages, .missing_mapping i convo :: r.errors, r.skipped + 1⟩
    | .failed ds e =>
      ⟨r.messages, ds ++ (.exception i convo e :: r.errors), r.skipped + 1⟩

/-- `extract_user_messages` over the enumerated conversations. -/
def extract_user_messages (conversations : List Json) : ExtractResult :=
  extractFrom 0 conversations

/-- Abstract model of the external `tiktoken` encoding: an encode/decode pair
on token identifiers. The script calls it through `count_tokens` and
`truncate_to_tokens`. -/
structure Tokenizer where
  encode : Str → List Nat
  decode : List Nat → Str

/-- The script's `count_tokens`: the token count under the backend, or the
`len(text) // 4` heuristic when the backend raises (`tok = none`). -/
def count_tokens (tok : Option Tokenizer) (text : Str) : Nat :=
  match tok with
  | some t => (t.encode text).length
  | none => text.length / 4

/-- The script's `truncate_to_tokens`: return the text unchanged when its
count is within the limit; otherwise decode the first `maxTokens` tokens, or
slice the first `maxTokens * 4` characters under the fallback. -/
def truncate_to_tokens (tok : Option Tokenizer) (text : Str) (maxTokens : Nat) :
    Str :=
  if count_tokens tok text ≤ maxTokens then text
  else
    match tok with
    | some t => t.decode ((t.encode text).take maxTokens)
    | none => text.take (maxTokens * 4)

/-- The truncation loop of `format_to_jsonl`: each message over the limit is
replaced by its truncation, the rest pass through unchanged. -/
def truncation_pass (tok : Option Tokenizer) (maxTokens : Nat) :
    List Str → List Str
  | [] => []
  | msg :: rest =>
    (if count_tokens tok msg > maxTokens
      then truncate_to_tokens tok msg maxTokens else msg)
      :: truncation_pass tok maxTokens rest

/-- The loop body of `remove_duplicates`, with the `seen` set modelled as the
list of values inserted so far (only membership is ever queried, so the set's
internal order is irrelevant). -/
def removeDupAux (seen : List Str) : List Str → List Str
  | [] => []
  | msg :: rest =>
    if seen.contains msg then removeDupAux seen rest
    else msg :: removeDupAux (msg :: seen) rest

/-- The script's `remove_duplicates`: keep the first occurrence of each
distinct message, in order. -/
def remove_duplicates (messages : List Str) : List Str :=
  removeDupAux [] messages

/-- The script's `filter_empty_entries`: drop messages that are empty or
all-whitespace. -/
def filter_empty_entries (messages : List Str) : List Str :=
  messages.filter (fun m => !(pyStrip m).isEmpty)

/-- The fixed user-turn instruction string. -/
def userInstr : Str := "Write a blog post in my voice.".data

/-- One output line before JSON serialization: exactly two turns, the fixed
user instruction and the derived assistant turn. -/
structure ChatRecord where
  user : Str
  assistant : Str
  deriving DecidableEq

/-- The record built for one surviving message: assistant content is a single
leading space, the message with trailing whitespace stripped, and a single
trailing newline. -/
def mkRecord (msg : Str) : ChatRecord :=
  ⟨userInstr, ' ' :: (pyRstrip msg ++ ['\n'])⟩

/-- The script's `format_to_jsonl`: truncation pass, then the dedup pass when
enabled, then the empty filter, then record construction, in that order. -/
def format_to_jsonl (tok : Option Tokenizer) (messages : List Str)
    (maxTokens : Nat) (removeDuplicatesFlag : Bool) : List ChatRecord :=
  let tokenLimited := truncation_pass tok maxTokens messages
  let deduped :=
    if removeDuplicatesFlag then remove_duplicates tokenLimited
    else tokenLimited
  let nonEmpty := filter_empty_entries deduped
  nonEmpty.map mkRecord

/-- Outcome of a whole run of `main` after argument parsing: the process exit
code and, when the output file was opened for writing (creating or truncating
it), the records written. `output = none` means the output file was never
touched. -/
structure MainResult where
  exitCode : Nat
  output : Option (List ChatRecord)
  deriving DecidableEq

/-- A run of `main` on an input that was read successfully: `parsed = none`
models a `json.JSONDecodeError` (caught, `sys.exit(1)`); a parsed document
with no `len()` crashes on the uncaught `TypeError` in `len(conversations)`
(non-zero exit, output untouched); otherwise the document is iterated as
Python would iterate it, the pipeline runs, and the output file is written. -/
def runMain (tok : Option Tokenizer) (parsed : Option Json) (maxTokens : Nat)
    (removeDuplicatesFlag : Bool) : MainResult :=
  match parsed with
  | none => ⟨1, none⟩
  | some conversations =>
    match pyLen conversations with
    | .error _ => ⟨1, none⟩
    | .ok _ =>
      match iterElems conversations with
      | .error _ => ⟨1, none⟩
      | .ok convos =>
        let er := extract_user_messages convos
        ⟨0, some (format_to_jsonl tok er.messages maxTokens
          removeDuplicatesFlag)⟩

/-! ### Shared helper lemmas -/

theorem removeDupAux_sublist (seen : List Str) (l : List Str) :
    List.Sublist (removeDupAux seen l) l := by
  induction l generalizing seen with
  | nil => simp [removeDupAux]
  | cons m rest ih =>
    cases h : seen.contains m with
    | true =>
      rw [removeDupAux, if_pos h]
      exact (ih seen).cons m
    | false =>
      rw [removeDupAux, if_neg (by rw [h]; simp)]
      exact (ih (m :: seen)).cons₂ m

theorem mem_removeDupAux {seen : List Str} {l : List Str} {m : Str}
    (h : m ∈ removeDupAux seen l) : seen.contains m = false := by
  induction l generalizing seen with
  | nil => simp [removeDupAux] at h
  | cons x rest ih =>
    cases hx : seen.contains x with
    | true =>
      rw [removeDupAux, if_pos hx] at h
      exact ih h
    | false =>
      rw [removeDupAux, if_neg (by rw [hx]; simp)] at h
      rcases List.mem_cons.mp h with rfl | h
      · exact hx
      · have := ih h
        simp only [List.contains_cons, Bool.or_eq_false_iff] at this
        exact this.2

theorem removeDupAux_pairwise (seen : List Str) (l : List Str) :
    (removeDupAux seen l).Pairwise (· ≠ ·) := by
  induction l generalizing seen with
  | nil => simp [removeDupAux]
  | cons x rest ih =>
    cases hx : seen.contains x with
    | true =>
      rw [removeDupAux, if_pos hx]
      exact ih seen
    | false =>
      rw [removeDupAux, if_neg (by rw [hx]; simp)]
      refine List.Pairwise.cons (fun b hb => ?_) (ih (x :: seen))
      have := mem_removeDupAux hb
      simp only [List.contains_cons, Bool.or_eq_false_iff,
        beq_eq_false_iff_ne] at this
      exact fun hxb => this.1 hxb.symm

theorem truncation_pass_eq_map (tok : Option Tokenizer) (mt : Nat)
    (l : List Str) :
    truncation_pass tok mt l =
      l.map (fun m =>
        if count_tokens tok m > mt then truncate_to_tokens tok m mt else m) := by
  induction l with
  | nil => rfl
  | cons m rest ih => simp [truncation_pass, ih]

theorem dropWhile_forall_iff (p : Char → Bool) (l : Str) :
    (∀ x ∈ l.dropWhile p, p x) ↔ (∀ x ∈ l, p x) := by
  constructor
  · intro h x hx
    rw [← List.takeWhile_append_dropWhile p l] at hx
    rcases List.mem_append.mp hx with h1 | h2
    · exact List.mem_takeWhile_imp h1
    · exact h x h2
  · intro h x hx
    exact h x ((List.dropWhile_sublist p).subset hx)

theorem pyStrip_isEmpty_iff (s : Str) :
    (pyStrip s).isEmpty = true ↔ ∀ c ∈ s, c.isWhitespace = true := by
  simp only [pyStrip, List.isEmpty_iff, List.reverse_eq_nil_iff,
    List.dropWhile_eq_nil_iff, List.mem_reverse]
  exact dropWhile_forall_iff Char.isWhitespace s

theorem mem_pyRstrip {s : Str} {c : Char} (hc : c ∈ s)
    (hw : c.isWhitespace = false) : c ∈ pyRstrip s := by
  simp only [pyRstrip, List.mem_reverse]
  have hrev : c ∈ s.reverse := List.mem_reverse.mpr hc
  rw [← List.takeWhile_append_dropWhile Char.isWhitespace s.reverse] at hrev
  rcases List.mem_append.mp hrev with h1 | h2
  · exact absurd (List.mem_takeWhile_imp h1) (by simp [hw])
  · exact h2

theorem assistant_not_all_whitespace {m : Str}
    (h : (pyStrip m).isEmpty = false) :
    (pyStrip (' ' :: (pyRstrip m ++ ['\n']))).isEmpty = false := by
  have hm : ¬ ∀ c ∈ m, c.isWhitespace = true := by
    intro hall
    rw [← pyStrip_isEmpty_iff] at hall
    rw [hall] at h
    simp at h
  push_neg at hm
  obtain ⟨c, hc, hcw⟩ := hm
  have hcw' : c.isWhitespace = false := by
    cases hcc : c.isWhitespace
    · rfl
    · exact absurd hcc hcw
  have hmem : c ∈ ' ' :: (pyRstrip m ++ ['\n']) :=
    List.mem_cons_of_mem _ (List.mem_append.mpr (Or.inl (mem_pyRstrip hc hcw')))
  cases he : (pyStrip (' ' :: (pyRstrip m ++ ['\n']))).isEmpty
  · rfl
  · have := (pyStrip_isEmpty_iff _).mp he c hmem
    rw [this] at hcw'
    exact absurd hcw' (by simp)

theorem mem_of_mem_format {tok : Option Tokenizer} {msgs : List Str}
    {mt : Nat} {flag : Bool} {rec : ChatRecord}
    (h : rec ∈ format_to_jsonl tok msgs mt flag) :
    ∃ m, m ∈ truncation_pass tok mt msgs ∧ (pyStrip m).isEmpty = false ∧
      rec = mkRecord m := by
  cases flag with
  | false =>
    simp only [format_to_jsonl, Bool.false_eq_true, if_false,
      filter_empty_entries] at h
    obtain ⟨m, hm, rfl⟩ := List.mem_map.mp h
    have hfil := List.mem_filter.mp hm
    exact ⟨m, hfil.1, by simpa using hfil.2, rfl⟩
  | true =>
    simp only [format_to_jsonl, if_true, filter_empty_entries] at h
    obtain ⟨m, hm, rfl⟩ := List.mem_map.mp h
    have hfil := List.mem_filter.mp hm
    exact ⟨m, (removeDupAux_sublist [] _).subset hfil.1,
      by simpa using hfil.2, rfl⟩

/-! ### Claim theorems -/

/-- C4, counterexample: the claim says the fallback count is
`ceil(len(text)/4)` and the fallback truncation always returns the first
`limit * 4` characters. On `"hello"` (length 5) the code returns
`5 // 4 = 1`, not `ceil(5/4) = 2`; and `truncate("hello", 1)` returns
`"hello"` unchanged (its fallback count 1 is within the limit), not the first
4 characters. -/
theorem c4_count_fallback_counterexample :
    count_tokens none "hello".data ≠ ("hello".data.length + 3) / 4 ∧
    truncate_to_tokens none "hello".data 1 ≠ "hello".data.take (1 * 4) := by
  constructor <;> decide

/-- C4, amended: when the tokenizer backend fails, `count` returns
`len(text) // 4` (floor, not ceiling), and `truncate` returns the text
unchanged when that floor count is within the limit (so up to
`limit * 4 + 3` characters may remain) and otherwise the first `limit * 4`
characters; in particular the fallback result never exceeds
`limit * 4 + 3` characters. -/
theorem c4_count_fallback_amended (s : Str) (mt : Nat) :
    count_tokens none s = s.length / 4 ∧
    truncate_to_tokens none s mt =
      (if s.length / 4 ≤ mt then s else s.take (mt * 4)) ∧
    (truncate_to_tokens none s mt).length ≤ mt * 4 + 3 := by
  refine ⟨rfl, rfl, ?_⟩
  rw [truncate_to_tokens]
  by_cases h : count_tokens none s ≤ mt
  · rw [if_pos h]
    have h4 : s.length / 4 ≤ mt := h
    omega
  · rw [if_neg h]
    show (s.take (mt * 4)).length ≤ mt * 4 + 3
    simp only [List.length_take]
    omega

/-- C6: a structured Part tagged `audio_transcription` with text `"hello"`
yields exactly the one Fragment `"hello"` and no diagnostic, while a
structured Part carrying any other string tag yields zero Fragments and
exactly one `non_text_content` diagnostic carrying that tag and the raw
part. -/
theorem c6_part_extraction (i : Nat) (nid : Str) (kvs : List (Str × Json))
    (t : Str) (hct : kvs.lookup ctypeKey = some (Json.str t))
    (hne : (t == audioTag) = false) :
    processPart i nid (Json.obj kvs) =
      .ok ([], [DiagEntry.non_text_content i nid (Json.str t)
        (Json.obj kvs)]) ∧
    processPart i nid (Json.obj
        [(ctypeKey, Json.str audioTag), (textKey, Json.str "hello".data)]) =
      .ok (["hello".data], []) := by
  constructor
  · rw [processPart]
    simp [hct, hne]
  · rfl

/-- C6 witness: instantiated at an `image_asset_pointer` part. -/
theorem c6_part_extraction_witness :
    ([(ctypeKey, Json.str "image_asset_pointer".data)].lookup ctypeKey =
        some (Json.str "image_asset_pointer".data)) ∧
    (("image_asset_pointer".data == audioTag) = false) ∧
    (processPart 0 "n1".data
        (Json.obj [(ctypeKey, Json.str "image_asset_pointer".data)]) =
      .ok ([], [DiagEntry.non_text_content 0 "n1".data
        (Json.str "image_asset_pointer".data)
        (Json.obj [(ctypeKey, Json.str "image_asset_pointer".data)])]) ∧
    processPart 0 "n1".data (Json.obj
        [(ctypeKey, Json.str audioTag), (textKey, Json.str "hello".data)]) =
      .ok (["hello".data], [])) :=
  ⟨rfl, by decide,
    c6_part_extraction 0 "n1".data
      [(ctypeKey, Json.str "image_asset_pointer".data)]
      "image_asset_pointer".data rfl (by decide)⟩

/-- C7: a conversation whose `mapping` field is absent or falsy (in
particular an empty node-mapping) contributes zero Fragments, exactly one
`missing_mapping` diagnostic, and one to the skipped count, and extraction
continues with every subsequent conversation. -/
theorem c7_missing_mapping (i : Nat) (kvs : List (Str × Json))
    (rest : List Json)
    (h : falsy ((kvs.lookup mappingKey).getD (Json.obj [])) = true) :
    extractFrom i (Json.obj kvs :: rest) =
      ⟨(extractFrom (i + 1) rest).messages,
       DiagEntry.missing_mapping i (Json.obj kvs) ::
         (extractFrom (i + 1) rest).errors,
       (extractFrom (i + 1) rest).skipped + 1⟩ := by
  have hp : processConvo i (Json.obj kvs) = .missing := by
    unfold processConvo pyGet
    simp [h]
  simp [extractFrom, hp]

/-- C7 witness: a conversation with an empty node-mapping followed by a
further (itself malformed) conversation that is still processed. -/
theorem c7_missing_mapping_witness :
    (falsy ((([(mappingKey, Json.obj [])] : List (Str × Json)).lookup
        mappingKey).getD (Json.obj [])) = true) ∧
    extractFrom 0 (Json.obj [(mappingKey, Json.obj [])] :: [Json.num 7]) =
      ⟨(extractFrom 1 [Json.num 7]).messages,
       DiagEntry.missing_mapping 0 (Json.obj [(mappingKey, Json.obj [])]) ::
         (extractFrom 1 [Json.num 7]).errors,
       (extractFrom 1 [Json.num 7]).skipped + 1⟩ :=
  ⟨by decide, c7_missing_mapping 0 [(mappingKey, Json.obj [])] [Json.num 7]
    (by decide)⟩

/-- C8: any exception raised while processing one conversation is absorbed at
the conversation boundary: the diagnostics already emitted persist, an
`exception` diagnostic carrying the error text is appended, the skipped count
is incremented, and extraction continues with the remaining conversations
(the extractor is a total function, so no error propagates to its caller). -/
theorem c8_exception_absorbed (i : Nat) (convo : Json) (rest : List Json)
    (ds : List DiagEntry) (e : Str)
    (h : processConvo i convo = ConvoStep.failed ds e) :
    extractFrom i (convo :: rest) =
      ⟨(extractFrom (i + 1) rest).messages,
       ds ++ (DiagEntry.exception i convo e ::
         (extractFrom (i + 1) rest).errors),
       (extractFrom (i + 1) rest).skipped + 1⟩ := by
  simp [extractFrom, h]

/-- C8 witness: a non-dict conversation (the number 3) raises
`AttributeError` in `convo.get("mapping", {})` and is absorbed. -/
theorem c8_exception_absorbed_witness :
    processConvo 0 (Json.num 3) = ConvoStep.failed [] attrGetErr ∧
    extractFrom 0 [Json.num 3] =
      ⟨(extractFrom 1 []).messages,
       [] ++ (DiagEntry.exception 0 (Json.num 3) attrGetErr ::
         (extractFrom 1 []).errors),
       (extractFrom 1 []).skipped + 1⟩ :=
  ⟨rfl, c8_exception_absorbed 0 (Json.num 3) [] [] attrGetErr rfl⟩

/-- C9: every emitted ChatRecord has exactly two turns (the `ChatRecord`
structure: the fixed user instruction and one assistant turn), the assistant
turn is a single leading space, the source fragment with trailing whitespace
stripped, and a single trailing newline, and no record is emitted whose
assistant content is empty or all-whitespace. -/
theorem c9_record_shape (tok : Option Tokenizer) (msgs : List Str) (mt : Nat)
    (flag : Bool) (rec : ChatRecord)
    (h : rec ∈ format_to_jsonl tok msgs mt flag) :
    rec.user = userInstr ∧
    (∃ m, (pyStrip m).isEmpty = false ∧
      rec.assistant = ' ' :: (pyRstrip m ++ ['\n'])) ∧
    (pyStrip rec.assistant).isEmpty = false := by
  obtain ⟨m, _, hne, rfl⟩ := mem_of_mem_format h
  exact ⟨rfl, ⟨m, hne, rfl⟩, assistant_not_all_whitespace hne⟩

/-- C9 witness: the record emitted for the single fragment `"hi"`. -/
theorem c9_record_shape_witness :
    mkRecord "hi".data ∈ format_to_jsonl none ["hi".data] 2048 true ∧
    ((mkRecord "hi".data).user = userInstr ∧
     (∃ m, (pyStrip m).isEmpty = false ∧
       (mkRecord "hi".data).assistant = ' ' :: (pyRstrip m ++ ['\n'])) ∧
     (pyStrip (mkRecord "hi".data).assistant).isEmpty = false) :=
  ⟨by decide, c9_record_shape none ["hi".data] 2048 true _ (by decide)⟩

/-- C5: the Normalizer applies its passes in the fixed order truncation, then
deduplication (when the flag is set), then empty-filtering, then record
construction; truncation is an elementwise map (retaining every fragment in
place), and deduplication and empty-filtering each return a sublist of their
input, so every pass preserves the relative order of the fragments it
retains. -/
theorem c5_pass_order (tok : Option Tokenizer) (mt : Nat) (flag : Bool)
    (msgs l : List Str) :
    format_to_jsonl tok msgs mt flag =
      (filter_empty_entries
        (if flag then remove_duplicates (truncation_pass tok mt msgs)
         else truncation_pass tok mt msgs)).map mkRecord ∧
    truncation_pass tok mt l =
      l.map (fun m =>
        if count_tokens tok m > mt then truncate_to_tokens tok m mt else m) ∧
    List.Sublist (remove_duplicates l) l ∧
    List.Sublist (filter_empty_entries l) l :=
  ⟨rfl, truncation_pass_eq_map tok mt l, removeDupAux_sublist [] l,
    List.filter_sublist l⟩

/-- C2, counterexample: an end-to-end run with deduplication enabled that
emits two identical ChatRecords. One conversation carries the two user parts
`"abc WXYZ"` and `"abc"`; with `max-tokens = 1` under the fallback tokenizer
the first is truncated to `"abc "`, which differs from `"abc"` (so the dedup
pass keeps both) yet collapses onto the same assistant content once trailing
whitespace is stripped. -/
theorem c2_dedup_counterexample :
    format_to_jsonl none
      (extract_user_messages
        [Json.obj [(mappingKey, Json.obj [("n1".data,
          Json.obj [(messageKey, Json.obj [
            (authorKey, Json.obj [(roleKey, Json.str userRole)]),
            (contentKey, Json.obj [(partsKey,
              Json.arr [Json.str "abc WXYZ".data,
                        Json.str "abc".data])])])])])]]).messages
      1 true =
      [⟨userInstr, " abc\n".data⟩, ⟨userInstr, " abc\n".data⟩] := by
  decide

/-- C2, amended: with deduplication enabled the fragments surviving the dedup
pass are pairwise distinct, and the emitted assistant contents are pairwise
distinct provided the surviving fragments stay pairwise distinct after
trailing whitespace is stripped (distinct fragments that differ only in
trailing whitespace still collapse onto identical assistant content); with
deduplication disabled the pipeline is the plain composition of truncation,
empty-filtering and formatting, so every duplicate of a non-blank fragment is
emitted (its occurrence count is preserved) in the original relative
order. -/
theorem c2_dedup_amended (tok : Option Tokenizer) (mt : Nat) (msgs : List Str)
    (hdist : (filter_empty_entries (remove_duplicates
        (truncation_pass tok mt msgs))).Pairwise
        (fun a b => pyRstrip a ≠ pyRstrip b)) :
    (remove_duplicates (truncation_pass tok mt msgs)).Pairwise (· ≠ ·) ∧
    ((format_to_jsonl tok msgs mt true).map ChatRecord.assistant).Pairwise
      (· ≠ ·) ∧
    format_to_jsonl tok msgs mt false =
      (filter_empty_entries (truncation_pass tok mt msgs)).map mkRecord ∧
    (∀ m, (pyStrip m).isEmpty = false →
      (filter_empty_entries (truncation_pass tok mt msgs)).count m =
        (truncation_pass tok mt msgs).count m) := by
  refine ⟨removeDupAux_pairwise [] _, ?_, rfl, ?_⟩
  · have hform : format_to_jsonl tok msgs mt true =
        (filter_empty_entries (remove_duplicates
          (truncation_pass tok mt msgs))).map mkRecord := rfl
    rw [hform, List.map_map, List.pairwise_map]
    refine hdist.imp ?_
    intro a b hab hcontra
    apply hab
    have : ' ' :: (pyRstrip a ++ ['\n']) = ' ' :: (pyRstrip b ++ ['\n']) :=
      hcontra
    exact List.append_cancel_right (List.cons.injEq _ _ _ _ ▸ this).2
  · intro m hm
    exact List.count_filter (by simp [hm])

/-- C2 witness: a single fragment input, where the rstrip-distinctness side
condition holds trivially. -/
theorem c2_dedup_amended_witness :
    (filter_empty_entries (remove_duplicates
        (truncation_pass none 2048 ["ab".data]))).Pairwise
        (fun a b => pyRstrip a ≠ pyRstrip b) ∧
    ((remove_duplicates (truncation_pass none 2048 ["ab".data])).Pairwise
        (· ≠ ·) ∧
     ((format_to_jsonl none ["ab".data] 2048 true).map
        ChatRecord.assistant).Pairwise (· ≠ ·) ∧
     format_to_jsonl none ["ab".data] 2048 false =
       (filter_empty_entries (truncation_pass none 2048 ["ab".data])).map
         mkRecord ∧
     (∀ m, (pyStrip m).isEmpty = false →
       (filter_empty_entries (truncation_pass none 2048 ["ab".data])).count m =
         (truncation_pass none 2048 ["ab".data]).count m)) :=
  ⟨by decide, c2_dedup_amended none 2048 ["ab".data] (by decide)⟩

theorem count_truncate_le (t : Tokenizer)
    (hdec : ∀ ts, (t.encode (t.decode ts)).length ≤ ts.length) (s : Str)
    (mt : Nat) :
    count_tokens (some t) (truncate_to_tokens (some t) s mt) ≤ mt := by
  rw [truncate_to_tokens]
  by_cases h : count_tokens (some t) s ≤ mt
  · rw [if_pos h]
    exact h
  · rw [if_neg h]
    show (t.encode (t.decode ((t.encode s).take mt))).length ≤ mt
    refine le_trans (hdec _) ?_
    rw [List.length_take]
    exact Nat.min_le_left _ _

/-- C1: with the tokenizer backend available, every emitted ChatRecord's
assistant content, after the leading space and trailing newline are stripped
back out, has token count at most the configured limit. The two hypotheses
are the contract the spec assigns to the external tokenizer backend:
re-encoding a decoded token sequence yields at most as many tokens (which
makes `truncate_to_tokens` respect the limit), and stripping trailing
whitespace never increases the token count. -/
theorem c1_token_limit (t : Tokenizer) (msgs : List Str) (mt : Nat)
    (flag : Bool) (rec : ChatRecord)
    (hdec : ∀ ts, (t.encode (t.decode ts)).length ≤ ts.length)
    (hrs : ∀ s, (t.encode (pyRstrip s)).length ≤ (t.encode s).length)
    (hmem : rec ∈ format_to_jsonl (some t) msgs mt flag) :
    count_tokens (some t) (rec.assistant.tail.dropLast) ≤ mt := by
  obtain ⟨m, hmt, _, rfl⟩ := mem_of_mem_format hmem
  have hshape : (mkRecord m).assistant.tail.dropLast = pyRstrip m := by
    show (pyRstrip m ++ ['\n']).dropLast = pyRstrip m
    exact List.dropLast_concat
  rw [hshape]
  rw [truncation_pass_eq_map] at hmt
  obtain ⟨m0, _, rfl⟩ := List.mem_map.mp hmt
  by_cases hgt : count_tokens (some t) m0 > mt
  · rw [if_pos hgt]
    exact le_trans (hrs _) (count_truncate_le t hdec m0 mt)
  · rw [if_neg hgt]
    exact le_trans (hrs m0) (not_lt.mp hgt)

/-- Concrete tokenizer used to witness the tokenizer-contract hypotheses: one
token per character. -/
def charTok : Tokenizer :=
  ⟨fun s => s.map Char.toNat, fun ts => ts.map (fun n => Char.ofNat n)⟩

/-- C1 witness: the character tokenizer satisfies the contract, and the
record emitted for `"hi"` respects the 2048-token limit. -/
theorem c1_token_limit_witness :
    (∀ ts, (charTok.encode (charTok.decode ts)).length ≤ ts.length) ∧
    (∀ s, (charTok.encode (pyRstrip s)).length ≤ (charTok.encode s).length) ∧
    mkRecord "hi".data ∈ format_to_jsonl (some charTok) ["hi".data] 2048 true ∧
    count_tokens (some charTok) ((mkRecord "hi".data).assistant.tail.dropLast)
      ≤ 2048 := by
  have h1 : ∀ ts, (charTok.encode (charTok.decode ts)).length ≤ ts.length :=
    fun ts => by simp [charTok]
  have h2 : ∀ s,
      (charTok.encode (pyRstrip s)).length ≤ (charTok.encode s).length := by
    intro s
    show (List.map Char.toNat (pyRstrip s)).length ≤
      (List.map Char.toNat s).length
    simp only [List.length_map, pyRstrip, List.length_reverse]
    exact le_trans (List.dropWhile_sublist Char.isWhitespace).length_le
      (by simp)
  exact ⟨h1, h2, by decide,
    c1_token_limit charTok ["hi".data] 2048 true _ h1 h2 (by decide)⟩

/-- C3, counterexample: a top-level JSON object is exactly the kind of
malformed (non-array) input the claim says must fail fatally without touching
the output file; instead the run iterates the object's keys as if they were
conversations, absorbs each failure as an exception diagnostic, exits 0, and
opens the output file for writing (creating or truncating it), writing zero
records. -/
theorem c3_malformed_input_counterexample :
    runMain none (some (Json.obj [("a".data, Json.null)])) 2048 true =
      ⟨0, some []⟩ := rfl

/-- C3, amended: input text that does not parse as JSON causes a non-zero
exit with the output file untouched, and so does a parsed top-level value
with no `len()` (a number, boolean or null crashes on the uncaught
`TypeError` in `len(conversations)`); but a top-level JSON object is not
rejected: it is iterated over its keys, every key is skipped with an
exception diagnostic, and the run exits 0 after creating or truncating the
output file. -/
theorem c3_malformed_input_amended (tok : Option Tokenizer) (mt : Nat)
    (flag : Bool) (n : Int) (b : Bool) :
    runMain tok none mt flag = ⟨1, none⟩ ∧
    runMain tok (some (Json.num n)) mt flag = ⟨1, none⟩ ∧
    runMain tok (some (Json.bool b)) mt flag = ⟨1, none⟩ ∧
    runMain tok (some Json.null) mt flag = ⟨1, none⟩ ∧
    runMain tok (some (Json.obj [("a".data, Json.null)])) mt flag =
      ⟨0, some []⟩ := by
  refine ⟨rfl, rfl, rfl, rfl, ?_⟩
  cases flag <;> rfl

/-- The diagnostics contributed by one node of a conversation mapping. -/
def nodeDiags (i : Nat) (kv : Str × Json) : List DiagEntry :=
  (processNode i kv.1 kv.2).1

/-- The fragments contributed by one node when it processes cleanly. -/
def nodeMsgs (i : Nat) (kv : Str × Json) : List Str :=
  match processNode i kv.1 kv.2 with
  | (_, .ok ms) => ms
  | (_, .error _) => []

/-- Whether one node processes without raising. -/
def nodeOk (i : Nat) (kv : Str × Json) : Bool :=
  match processNode i kv.1 kv.2 with
  | (_, .ok _) => true
  | (_, .error _) => false

theorem processNodes_flatten (i : Nat) : ∀ (nodes : List (Str × Json)),
    (∀ kv ∈ nodes, nodeOk i kv = true) →
    processNodes i nodes =
      ((nodes.map (nodeDiags i)).flatten,
       .ok ((nodes.map (nodeMsgs i)).flatten))
  | [], _ => rfl
  | (nid, node) :: rest, hok => by
    have hkv : nodeOk i (nid, node) = true :=
      hok (nid, node) (List.mem_cons_self _ _)
    have hrest := processNodes_flatten i rest
      (fun kv2 h2 => hok kv2 (List.mem_cons_of_mem _ h2))
    cases hpn : processNode i nid node with
    | mk ds r =>
      cases r with
      | error e =>
        rw [nodeOk, hpn] at hkv
        simp at hkv
      | ok ms =>
        rw [processNodes, hpn, hrest]
        simp [nodeDiags, nodeMsgs, hpn]

/-- C10: the pipeline is a deterministic function of the parsed export value,
the token limit and the dedup flag (in the model every run is the same pure
function application: Python dicts iterate in insertion order, and the dedup
set is only queried for membership, so no hidden input influences the
output), and node iteration follows the mapping's insertion order: when every
node of a mapping processes cleanly, the extracted fragments and diagnostics
are exactly the per-node contributions concatenated in the insertion order of
the node list. -/
theorem c10_determinism (tok : Option Tokenizer) (mt : Nat) (flag : Bool)
    (parsed : Option Json) (convos : List Json) (i : Nat)
    (nodes : List (Str × Json))
    (hok : ∀ kv ∈ nodes, nodeOk i kv = true) :
    runMain tok parsed mt flag = runMain tok parsed mt flag ∧
    extract_user_messages convos = extract_user_messages convos ∧
    processNodes i nodes =
      ((nodes.map (nodeDiags i)).flatten,
       .ok ((nodes.map (nodeMsgs i)).flatten)) :=
  ⟨rfl, rfl, processNodes_flatten i nodes hok⟩

/-- C10 witness: a two-node mapping, both nodes clean, whose fragments come
out in insertion order. -/
theorem c10_determinism_witness :
    (∀ kv ∈ [(("n1".data : Str), Json.obj []),
             (("n2".data : Str), Json.obj [])], nodeOk 0 kv = true) ∧
    (runMain none (some (Json.arr [])) 2048 true =
       runMain none (some (Json.arr [])) 2048 true ∧
     extract_user_messages [] = extract_user_messages [] ∧
     processNodes 0 [(("n1".data : Str), Json.obj []),
                     (("n2".data : Str), Json.obj [])] =
       (([(("n1".data : Str), Json.obj []),
          (("n2".data : Str), Json.obj [])].map (nodeDiags 0)).flatten,
        .ok (([(("n1".data : Str), Json.obj []),
           (("n2".data : Str), Json.obj [])].map (nodeMsgs 0)).flatten))) :=
  ⟨by decide, c10_determinism none 2048 true (some (Json.arr [])) [] 0
    [(("n1".data : Str), Json.obj []), (("n2".data : Str), Json.obj [])]
    (by decide)⟩
